import Mathlib

/-!
Verification development for `xkbgroup/core.py`.

The development shallowly embeds the two components of the module:

* the symbol-string parser (`SYMBOL_REGEX`, `_parse_symbols`,
  `get_symboldata`, core.py lines 361-408), as pure functions on strings;
* the `XKeyboard` session lifecycle (`open_display`, `close_display`,
  the `group_num` setter, `groups_count`, core.py lines 107-273), as
  explicit state passing over the Python instance attributes, with an
  oracle environment supplying the results of the external Xlib calls
  and a trace of the external effects each operation performs.
-/

namespace Xkbgroup

/-! ### Symbol-string parser (core.py lines 361-408)

`SYMBOL_REGEX` is the verbose regex
`(?P<symbol>\w+) (?: \( (?P<variant>\w+) \) )? (?: : (?P<index>\d+) )?`,
used through `fullmatch` (the whole token must be consumed).

Because `(`, `)` and `:` are not word characters and the three groups are
all maximal-munch over disjoint character classes, the regex engine's
backtracking can never find a match that the following deterministic
left-to-right parser misses, so `fullmatchSymbol` below is an exact
embedding of `SYMBOL_REGEX.fullmatch`.  Python's `\w`/`\d` are
Unicode-aware; we model the ASCII fragment, which covers every string the
module feeds to the parser in the claims under verification. -/

/-- A character matched by `\w` (ASCII fragment): alphanumeric or underscore. -/
def isWordChar (c : Char) : Bool := c.isAlphanum || c = '_'

/-- A character matched by `\d` (ASCII fragment). -/
def isDigitChar (c : Char) : Bool := c.isDigit

/-- `SymbolData = namedtuple("SymbolData", ["symbol", "variant", "index"])`.
`variant` is `None` (here `none`) when the optional group is absent; `index`
is an `int`, which can go negative (`int("0") - 1`), hence `Int`. -/
structure SymbolData where
  symbol : String
  variant : Option String
  index : Int
deriving DecidableEq, Repr

/-- Errors the parser can raise: `X11Error("Malformed symbol string: ...")`
for a token rejected by the regex, and the `assert`'s `AssertionError`
for duplicate indices (`assert len(indices) == len(set(indices))`). -/
inductive ParseErr where
  | malformed (tok : String)
  | duplicateIndices
deriving DecidableEq, Repr

instance {ε α : Type} [DecidableEq ε] [DecidableEq α] : DecidableEq (Except ε α)
  | Except.error a, Except.error b =>
    if h : a = b then Decidable.isTrue (by rw [h])
    else Decidable.isFalse (fun hc => h (by injection hc))
  | Except.error _, Except.ok _ => Decidable.isFalse (fun hc => by cases hc)
  | Except.ok _, Except.error _ => Decidable.isFalse (fun hc => by cases hc)
  | Except.ok a, Except.ok b =>
    if h : a = b then Decidable.isTrue (by rw [h])
    else Decidable.isFalse (fun hc => h (by injection hc))

/-- The optional `(?: \( (?P<variant>\w+) \) )?` group: on a leading `'('`
the group must match (a nonempty word-char run closed by `')'`), since a
`'('` left unconsumed can never be matched by the index group or the end
anchor; otherwise the group is skipped. -/
def matchVariant : List Char → Option (Option (List Char) × List Char)
  | '(' :: r =>
    match r.dropWhile isWordChar with
    | ')' :: r3 =>
      if (r.takeWhile isWordChar).isEmpty then none
      else some (some (r.takeWhile isWordChar), r3)
    | _ => none
  | cs => some (none, cs)

/-- The optional `(?: : (?P<index>\d+) )?` group: on a leading `':'` the
group must match a nonempty digit run (an unconsumed `':'` can never be
matched by the end anchor); otherwise the group is skipped. -/
def matchIndex : List Char → Option (Option (List Char) × List Char)
  | ':' :: r =>
    if (r.takeWhile isDigitChar).isEmpty then none
    else some (some (r.takeWhile isDigitChar), r.dropWhile isDigitChar)
  | cs => some (none, cs)

/-- `SYMBOL_REGEX.fullmatch symstr`, returning the three captured groups
(`symbol`, optional `variant`, optional `index` digits). -/
def fullmatchSymbol (symstr : String) : Option (String × Option String × Option String) :=
  if (symstr.data.takeWhile isWordChar).isEmpty then none
  else
    match matchVariant (symstr.data.dropWhile isWordChar) with
    | none => none
    | some (variant, r2) =>
      match matchIndex r2 with
      | none => none
      | some (idx, r3) =>
        if r3.isEmpty then
          some (String.mk (symstr.data.takeWhile isWordChar),
                variant.map String.mk, idx.map String.mk)
        else none

/-- Python's `int` on the nonempty digit string captured by `\d+`. -/
def digitsToNat (s : String) : Nat :=
  s.data.foldl (fun a c => a * 10 + (c.toNat - '0'.toNat)) 0

/-- The inner `get_symboldata` of `_parse_symbols`: run the regex, then
`int(index) - 1 if index else default_index`. -/
def get_symboldata (default_index : Int) (symstr : String) : Except ParseErr SymbolData :=
  match fullmatchSymbol symstr with
  | some (sym, variant, idx) =>
    Except.ok ⟨sym, variant,
      match idx with
      | some ds => (digitsToNat ds : Int) - 1
      | none => default_index⟩
  | none => Except.error (ParseErr.malformed symstr)

/-- `symbols_str.split('+')` (Python `str.split` with an explicit separator
keeps empty fields). -/
def splitPlusAux : List Char → List Char → List String
  | [], cur => [String.mk cur.reverse]
  | '+' :: rest, cur => String.mk cur.reverse :: splitPlusAux rest []
  | c :: rest, cur => splitPlusAux rest (c :: cur)

/-- `symbols_str.split('+')`. -/
def splitPlus (s : String) : List String := splitPlusAux s.data []

/-- The token loop of `_parse_symbols`: each token goes through
`get_symboldata` (raising on the first malformed token), and the result is
appended unless its symbol is in `non_symbols`. -/
def parseTokens (non_symbols : List String) (default_index : Int) :
    List String → Except ParseErr (List SymbolData)
  | [] => Except.ok []
  | t :: ts =>
    match get_symboldata default_index t with
    | Except.error e => Except.error e
    | Except.ok sd =>
      match parseTokens non_symbols default_index ts with
      | Except.error e => Except.error e
      | Except.ok rest =>
        Except.ok (if sd.symbol ∈ non_symbols then rest else sd :: rest)

/-- `_parse_symbols(symbols_str, non_symbols, default_index=0)`: split on
`'+'`, parse and filter every token, then
`assert len(indices) == len(set(indices))`. -/
def _parse_symbols (symbols_str : String) (non_symbols : List String)
    (default_index : Int := 0) : Except ParseErr (List SymbolData) :=
  match parseTokens non_symbols default_index (splitPlus symbols_str) with
  | Except.error e => Except.error e
  | Except.ok lst =>
    if (lst.map SymbolData.index).Nodup then Except.ok lst
    else Except.error ParseErr.duplicateIndices

/-! ### Session lifecycle (`XKeyboard`, core.py lines 107-273)

The Python instance carries (at most) two attributes, `_display` and
`_keyboard_description`, both ctypes pointers.  We model each attribute as
an `Option Nat`: `none` means the attribute does not exist on the instance
(`hasattr` is false, as on a fresh instance or after `del`), `some 0`
models an attribute holding a NULL pointer (which `hasattr` sees but whose
truth value is false), and `some (n+1)` a live pointer.

Results of the external Xlib calls come from an oracle `Env`; every
operation additionally returns the list of external calls it performed, so
that resource release (`XkbFree*`, `XCloseDisplay`) is observable. -/

/-- External calls a session operation can perform. -/
inductive Eff where
  | xkbOpenDisplay
  | xkbGetMap
  | xkbGetControls
  | xkbGetNames
  | xkbFreeNames
  | xkbFreeControls
  | xkbFreeClientMap
  | xCloseDisplay
  | xkbLockGroup
  | xFlush
deriving DecidableEq, Repr

/-- The attributes of an `XKeyboard` instance.  Only `_display` and
`_keyboard_description` are ever assigned by the class; in particular no
attribute named `display` (without the underscore) ever exists. -/
structure XKeyboardState where
  keyboard_description : Option Nat
  display : Option Nat
deriving DecidableEq, Repr

/-- A fresh instance (`XKeyboard(auto_open=False)`): neither attribute exists. -/
def freshState : XKeyboardState := ⟨none, none⟩

/-- The keyboard-description snapshot is held: attribute exists and is non-NULL. -/
def holdsKbd (s : XKeyboardState) : Bool :=
  match s.keyboard_description with
  | some p => p ≠ 0
  | none => false

/-- The server connection is held: `_display` exists and is non-NULL. -/
def holdsDisplay (s : XKeyboardState) : Bool :=
  match s.display with
  | some p => p ≠ 0
  | none => false

/-- `close_display` (core.py lines 151-164).

First branch: `if hasattr(self, "_keyboard_description") and
self._keyboard_description:` frees names, controls and the client map and
deletes the attribute.

Second branch: `if hasattr(self, "display") and self._display:` — the
instance never has an attribute named `display` (the class only ever sets
`_display`, and defines no property of that name), so `hasattr` is false
in every reachable state and the branch's body (`XCloseDisplay`,
`del self._display`) is unreachable: the function returns with `_display`
untouched and without closing the connection. -/
def close_display (s : XKeyboardState) : XKeyboardState × List Eff :=
  match s.keyboard_description with
  | some p =>
    if p ≠ 0 then
      ({ s with keyboard_description := none },
       [Eff.xkbFreeNames, Eff.xkbFreeControls, Eff.xkbFreeClientMap])
    else (s, [])
  | none => (s, [])

/-- Reason codes for `XkbOpenDisplay` and status codes for
`XkbGetControls`/`XkbGetNames`.  The numeric values come from the X11/XKB
headers re-declared in the package's `xkb` bindings module (not under
`src/`); only `Success = 0` and membership of the four open-display
failure reasons matter to the control flow of `core.py`. -/
def Success : Nat := 0

/-- `XkbOD_BadLibraryVersion`. -/
def XkbOD_BadLibraryVersion : Nat := 1

/-- `XkbOD_ConnectionRefused`. -/
def XkbOD_ConnectionRefused : Nat := 2

/-- `XkbOD_NonXkbServer`. -/
def XkbOD_NonXkbServer : Nat := 3

/-- `XkbOD_BadServerVersion`. -/
def XkbOD_BadServerVersion : Nat := 4

/-- `BadAlloc` (X.h). -/
def BadAlloc : Nat := 11

/-- The keys of the `OPEN_DISPLAY_ERRORS` dict (core.py lines 30-35). -/
def OPEN_DISPLAY_ERRORS : List Nat :=
  [XkbOD_BadLibraryVersion, XkbOD_ConnectionRefused,
   XkbOD_BadServerVersion, XkbOD_NonXkbServer]

/-- The `X11Error` raised by each failing step of `open_display` (the
Python code raises `X11Error` with a message looked up from the
corresponding dict; we record which step failed and the code). -/
inductive OpenErr where
  | openDisplayError (reason : Nat)
  | getMapFailed
  | getControlsError (status : Nat)
  | getNamesError (status : Nat)
deriving DecidableEq, Repr

/-- Oracle for the external Xlib calls made during one operation. -/
structure Env where
  openReason : Nat
  openHandle : Nat
  mapHandle : Nat
  controlsStatus : Nat
  namesStatus : Nat
  lockGroupOk : Bool
deriving DecidableEq, Repr

/-- `open_display` (core.py lines 114-149): close any previous session,
connect (`XkbOpenDisplay`, assigning `self._display` before the reason
check), fetch the keyboard description (`XkbGetMap`, assigning
`self._keyboard_description` before the NULL check), fetch controls, fetch
names; on any failing step after the connect, call `close_display` before
raising.  Returns the final attribute state, the trace of external calls,
and the raised error if any. -/
def open_display (env : Env) (s : XKeyboardState) :
    XKeyboardState × List Eff × Option OpenErr :=
  let (s0, e0) := close_display s
  let s1 : XKeyboardState := { s0 with display := some env.openHandle }
  let e1 := e0 ++ [Eff.xkbOpenDisplay]
  if env.openReason ∈ OPEN_DISPLAY_ERRORS then
    (s1, e1, some (OpenErr.openDisplayError env.openReason))
  else
    let s2 : XKeyboardState := { s1 with keyboard_description := some env.mapHandle }
    let e2 := e1 ++ [Eff.xkbGetMap]
    if env.mapHandle = 0 then
      let (s3, e3) := close_display s2
      (s3, e2 ++ e3, some OpenErr.getMapFailed)
    else
      let e2' := e2 ++ [Eff.xkbGetControls]
      if env.controlsStatus ≠ Success then
        let (s3, e3) := close_display s2
        (s3, e2' ++ e3, some (OpenErr.getControlsError env.controlsStatus))
      else
        let e2'' := e2' ++ [Eff.xkbGetNames]
        if env.namesStatus ≠ Success then
          let (s3, e3) := close_display s2
          (s3, e2'' ++ e3, some (OpenErr.getNamesError env.namesStatus))
        else
          (s2, e2'', none)

/-- The `group_num` setter (core.py lines 266-273): after the `int` type
check (enforced here by the type of `value`), call `XkbLockGroup`; on a
true result flush and return, otherwise `close_display` and raise
`X11Error("Failed to set group number.")` (recorded as `some ()`). -/
def group_num_set (env : Env) (value : Int) (s : XKeyboardState) :
    XKeyboardState × List Eff × Option Unit :=
  let _ := value
  if env.lockGroupOk then
    (s, [Eff.xkbLockGroup, Eff.xFlush], none)
  else
    let (s1, e1) := close_display s
    (s1, Eff.xkbLockGroup :: e1, some ())

/-! ### `groups_count` (core.py lines 193-210) -/

/-- `XkbNumKbdGroups` (XKB.h, via the bindings module). -/
def XkbNumKbdGroups : Nat := 4

/-- The X11 `None` atom (NULL sentinel), called `None_` in the bindings. -/
def None_ : Nat := 0

/-- The `ValueError("NULL pointer access")` ctypes raises when `.contents`
is read on a NULL `POINTER`. -/
inductive PyErr where
  | nullPointerAccess
deriving DecidableEq, Repr

/-- The target of the `ctrls` pointer: the one field `groups_count` reads. -/
structure XkbControlsRec where
  num_groups : Nat
deriving DecidableEq, Repr

/-- The parts of the keyboard description that `groups_count` reads:
`xkb->ctrls`, a ctypes `POINTER` field — `some` a valid target, `none` a
NULL pointer (the Python object itself is never `None`: `bool()` of the
field is false and `.contents` raises, but `ctrls is not None` is true in
both cases) — and `xkb->names->groups`, a C array of `XkbNumKbdGroups`
atom slots, modelled as a total function read only at indices below
`XkbNumKbdGroups`. -/
structure KeyboardDesc where
  ctrls : Option XkbControlsRec
  groups : Nat → Nat

/-- The fallback loop of `groups_count` (core.py lines 205-208):
`while groups_count < XkbNumKbdGroups and groups_source[groups_count] != None_:`.
The loop guard bounds the counter by `XkbNumKbdGroups`, so running the
loop body at most `fuel = XkbNumKbdGroups` times from counter `0` is
exact.  Note the branch containing this loop is unreachable (see
`groups_count`). -/
def scanLoop (groups : Nat → Nat) : Nat → Nat → Nat
  | 0, count => count
  | fuel + 1, count =>
    if count < XkbNumKbdGroups ∧ groups count ≠ None_ then
      scanLoop groups fuel (count + 1)
    else count

/-- `groups_count` (core.py lines 193-210).  The guard at line 200 is
`if self._keyboard_description.contents.ctrls is not None:`; `ctrls` is a
ctypes `POINTER` field (line 201 dereferences it with
`.contents.num_groups`), and a ctypes `POINTER` field is never `None`, so
the guard is always true and the `else` branch with the slot scan (lines
202-210) is dead code.  When the pointer is NULL, the dereference on line
201 raises `ValueError` instead of falling back to the scan. -/
def groups_count (kbd : KeyboardDesc) : Except PyErr Nat :=
  match kbd.ctrls with
  | some c => Except.ok c.num_groups
  | none => Except.error PyErr.nullPointerAccess

/-- The claim's (and spec's) description of `groups_count`: the controls
value when the controls block is present, else the number of leading
non-sentinel slots, stopping at the first sentinel or at the fixed
maximum slot count. -/
def groupCountSpec (kbd : KeyboardDesc) : Nat :=
  match kbd.ctrls with
  | some c => c.num_groups
  | none =>
    (((List.range XkbNumKbdGroups).takeWhile (fun i => kbd.groups i ≠ None_)).length)

/-! ### Concrete oracle environments for the session theorems -/

/-- Connect succeeds (handle 1), keyboard-description fetch returns NULL. -/
def envMapFail : Env := ⟨0, 1, 0, 0, 0, true⟩

/-- Connect and map fetch succeed, controls fetch returns `BadAlloc`. -/
def envControlsFail : Env := ⟨0, 1, 5, BadAlloc, 0, true⟩

/-- Every step succeeds. -/
def envAllOk : Env := ⟨0, 1, 5, 0, 0, true⟩

/-- Every step succeeds but `XkbLockGroup` returns false. -/
def envLockFail : Env := ⟨0, 1, 5, 0, 0, false⟩

/-- The state after a fully successful `open_display` under `envAllOk`:
both attributes exist and are non-NULL. -/
def openedState : XKeyboardState := ⟨some 5, some 1⟩

/-! ### The token grammar, stated declaratively

The spec's token grammar: `<word-chars>`, optionally followed by
`(<word-chars>)`, optionally followed by `:<digits>`, anchored to consume
the whole token.  `TokenGrammar` states this as an existential
decomposition of the token; `fullmatchSymbol` succeeds exactly on tokens
in this grammar (`fullmatch_iff_grammar` below). -/

/-- A nonempty run of word characters. -/
def IsWordChars (w : List Char) : Prop := w ≠ [] ∧ ∀ c ∈ w, isWordChar c = true

/-- A nonempty run of digits. -/
def IsDigits (d : List Char) : Prop := d ≠ [] ∧ ∀ c ∈ d, isDigitChar c = true

/-- The optional `(<word-chars>)` part. -/
def VariantPart (vp : List Char) : Prop :=
  vp = [] ∨ ∃ v, IsWordChars v ∧ vp = '(' :: (v ++ [')'])

/-- The optional `:<digits>` part. -/
def IndexPart (dp : List Char) : Prop :=
  dp = [] ∨ ∃ d, IsDigits d ∧ dp = ':' :: d

/-- The token matches the anchored grammar
`<word-chars> [( <word-chars> )] [: <digits>]`. -/
def TokenGrammar (t : String) : Prop :=
  ∃ w vp dp, IsWordChars w ∧ VariantPart vp ∧ IndexPart dp ∧ t.data = w ++ (vp ++ dp)

/-- Claim C1: on a failing step of the `open_display` handshake all
resources acquired in earlier steps are released and the session is left
fully closed.  The code violates this: when the controls fetch fails
(status `BadAlloc`) after a successful connect and map fetch, the error is
raised and the keyboard description is freed, but `XCloseDisplay` is never
called and the `_display` attribute survives (the cleanup guard tests
`hasattr(self, "display")`, an attribute that never exists, instead of
`"_display"`), so the step-1 connection is not released; likewise when the
keyboard-description fetch returns NULL. -/
theorem c1_open_failure_keeps_connection :
    (open_display envControlsFail freshState =
      (⟨none, some 1⟩,
       [Eff.xkbOpenDisplay, Eff.xkbGetMap, Eff.xkbGetControls,
        Eff.xkbFreeNames, Eff.xkbFreeControls, Eff.xkbFreeClientMap],
       some (OpenErr.getControlsError BadAlloc)))
    ∧ (open_display envControlsFail freshState).1.display = some 1
    ∧ Eff.xCloseDisplay ∉ (open_display envControlsFail freshState).2.1
    ∧ (open_display envMapFail freshState =
        (⟨some 0, some 1⟩, [Eff.xkbOpenDisplay, Eff.xkbGetMap],
         some OpenErr.getMapFailed))
    ∧ (open_display envMapFail freshState).1.display = some 1
    ∧ Eff.xCloseDisplay ∉ (open_display envMapFail freshState).2.1 := by
  decide

/-- Claim C2: after every public operation the keyboard-description
snapshot is held iff the connection is held.  The code violates this: a
successful `open_display` followed by `close_display` frees the snapshot
but — because the teardown guard tests `hasattr(self, "display")` instead
of `"_display"` — never calls `XCloseDisplay`, leaving the connection held
without the snapshot. -/
theorem c2_invariant_broken_after_close :
    (open_display envAllOk freshState =
      (openedState,
       [Eff.xkbOpenDisplay, Eff.xkbGetMap, Eff.xkbGetControls, Eff.xkbGetNames],
       none))
    ∧ holdsKbd openedState = true ∧ holdsDisplay openedState = true
    ∧ close_display openedState =
        (⟨none, some 1⟩, [Eff.xkbFreeNames, Eff.xkbFreeControls, Eff.xkbFreeClientMap])
    ∧ holdsKbd (close_display openedState).1 = false
    ∧ holdsDisplay (close_display openedState).1 = true
    ∧ Eff.xCloseDisplay ∉ (close_display openedState).2 := by
  decide

/-- Claim C3: `close()` releases the snapshot then the connection, is
idempotent and never fails.  The code releases the snapshot and is
idempotent, but never releases the connection: on an open session
`close_display` frees names/controls/map and deletes
`_keyboard_description`, yet performs no `XCloseDisplay` and keeps
`_display` (the guard tests the nonexistent attribute `display`). -/
theorem c3_close_never_releases_connection :
    close_display openedState =
      (⟨none, some 1⟩, [Eff.xkbFreeNames, Eff.xkbFreeControls, Eff.xkbFreeClientMap])
    ∧ Eff.xCloseDisplay ∉ (close_display openedState).2
    ∧ (close_display openedState).1.display = some 1
    ∧ close_display (close_display openedState).1 =
        ((close_display openedState).1, []) := by
  decide

/-- Claim C10: on acceptance `setGroupNum` flushes and the session stays
open; on rejection the session is forced closed and an error raised.  The
acceptance branch holds (`XFlush` is performed, the state is unchanged),
but on rejection the forced close frees only the keyboard description:
`XCloseDisplay` is never called and `_display` survives, so the session is
not left fully closed. -/
theorem c10_setter_rejection_not_fully_closed :
    group_num_set envAllOk 2 openedState =
      (openedState, [Eff.xkbLockGroup, Eff.xFlush], none)
    ∧ group_num_set envLockFail 2 openedState =
        (⟨none, some 1⟩,
         [Eff.xkbLockGroup, Eff.xkbFreeNames, Eff.xkbFreeControls, Eff.xkbFreeClientMap],
         some ())
    ∧ holdsDisplay (group_num_set envLockFail 2 openedState).1 = true
    ∧ Eff.xCloseDisplay ∉ (group_num_set envLockFail 2 openedState).2.1 := by
  decide

/-- The fallback loop computes the number of leading non-sentinel slots:
running `scanLoop` with `count + fuel = XkbNumKbdGroups` counts the
leading slots of `[count, …, XkbNumKbdGroups)` whose atom is not the
sentinel. -/
theorem scanLoop_eq_takeWhile (g : Nat → Nat) :
    ∀ (fuel count : Nat), count + fuel = XkbNumKbdGroups →
      scanLoop g fuel count =
        count + ((List.range' count fuel).takeWhile (fun i => g i ≠ None_)).length
  | 0, count, _ => by simp [scanLoop]
  | fuel + 1, count, h => by
    have hlt : count < XkbNumKbdGroups := by omega
    rw [List.range'_succ]
    by_cases hg : g count ≠ None_
    · rw [scanLoop, if_pos ⟨hlt, hg⟩,
        scanLoop_eq_takeWhile g fuel (count + 1) (by omega),
        List.takeWhile_cons_of_pos (by simpa using hg)]
      simp only [List.length_cons]
      omega
    · rw [scanLoop, if_neg (by tauto), List.takeWhile_cons_of_neg (by simpa using hg)]
      simp

/-- Claim C9: the controls half holds — with a valid controls pointer
`groups_count` returns its `num_groups` — but the claimed fallback never
happens.  The guard `ctrls is not None` (core.py line 200) is always true
for a ctypes `POINTER` field, so with a NULL controls pointer the code
raises `ValueError` on the dereference instead of scanning the group-name
slots: for slots `[5, 7, 0, 9]` the claim (and the spec, `groupCountSpec`)
demands the count 2, and the unreachable fallback loop would indeed
compute exactly the claimed leading non-sentinel count for every slot
array, yet `groups_count` errors. -/
theorem c9_null_ctrls_raises (c : XkbControlsRec) (g g' : Nat → Nat) :
    groups_count ⟨some c, g⟩ = Except.ok c.num_groups
    ∧ groups_count ⟨none, g'⟩ = Except.error PyErr.nullPointerAccess
    ∧ groupCountSpec ⟨none, fun i => [5, 7, 0, 9].getD i 0⟩ = 2
    ∧ (∀ g0 : Nat → Nat, scanLoop g0 XkbNumKbdGroups 0 =
        ((List.range XkbNumKbdGroups).takeWhile (fun i => g0 i ≠ None_)).length) := by
  refine ⟨rfl, rfl, by decide, fun g0 => ?_⟩
  rw [List.range_eq_range']
  simpa using scanLoop_eq_takeWhile g0 XkbNumKbdGroups 0 rfl

/-- Maximal munch over a run the predicate accepts, stopped by a head it
rejects, splits an append exactly. -/
theorem takeWhile_append_eq {p : Char → Bool} :
    ∀ (w rest : List Char), (∀ c ∈ w, p c = true) →
      (∀ c cs, rest = c :: cs → p c = false) →
      (w ++ rest).takeWhile p = w ∧ (w ++ rest).dropWhile p = rest
  | [], rest, _, hr => by
    cases rest with
    | nil => simp
    | cons c cs =>
      have hc : ¬ p c = true := by simp [hr c cs rfl]
      simp [List.takeWhile_cons_of_neg hc, List.dropWhile_cons_of_neg hc]
  | a :: w, rest, hw, hr => by
    have ha : p a = true := hw a (by simp)
    have ih := takeWhile_append_eq w rest (fun c hc => hw c (by simp [hc])) hr
    simp [List.takeWhile_cons_of_pos ha, List.dropWhile_cons_of_pos ha, ih.1, ih.2]

/-- Soundness direction: a token in the grammar is accepted by the regex. -/
theorem fullmatch_of_grammar {t : String} (h : TokenGrammar t) :
    ∃ x, fullmatchSymbol t = some x := by
  obtain ⟨w, vp, dp, ⟨hwne, hwall⟩, hvp, hdp, heq⟩ := h
  have hdphead : ∀ c cs, dp = c :: cs → isWordChar c = false := by
    rcases hdp with rfl | ⟨d, _, rfl⟩
    · intro c cs hc; cases hc
    · intro c cs hc
      injection hc with h1 _
      rw [← h1]; decide
  have hhead : ∀ c cs, vp ++ dp = c :: cs → isWordChar c = false := by
    rcases hvp with rfl | ⟨v, _, rfl⟩
    · simpa using hdphead
    · intro c cs hc
      injection hc with h1 _
      rw [← h1]; decide
  have hsplit := takeWhile_append_eq w (vp ++ dp) hwall hhead
  have hwempty : w.isEmpty = false := by
    cases w with
    | nil => exact absurd rfl hwne
    | cons a l => rfl
  have hmi : ∃ oi, matchIndex dp = some (oi, []) := by
    rcases hdp with rfl | ⟨d, ⟨hdne, hdall⟩, rfl⟩
    · exact ⟨none, rfl⟩
    · have hd := takeWhile_append_eq d [] hdall (by intro c cs hc; cases hc)
      rw [List.append_nil] at hd
      have hdempty : d.isEmpty = false := by
        cases d with
        | nil => exact absurd rfl hdne
        | cons a l => rfl
      refine ⟨some d, ?_⟩
      show (if (d.takeWhile isDigitChar).isEmpty then none
            else some (some (d.takeWhile isDigitChar), d.dropWhile isDigitChar)) =
          some (some d, [])
      rw [hd.1, hd.2, hdempty]
      simp
  have hmv : ∃ ov, matchVariant (vp ++ dp) = some (ov, dp) := by
    rcases hvp with rfl | ⟨v, ⟨hvne, hvall⟩, rfl⟩
    · refine ⟨none, ?_⟩
      rcases hdp with rfl | ⟨d, _, rfl⟩ <;> rfl
    · have hv := takeWhile_append_eq v (')' :: dp) hvall
        (by intro c cs hc; injection hc with h1 _; rw [← h1]; decide)
      have hvempty : v.isEmpty = false := by
        cases v with
        | nil => exact absurd rfl hvne
        | cons a l => rfl
      refine ⟨some v, ?_⟩
      have hassoc : ('(' :: (v ++ [')'])) ++ dp = '(' :: (v ++ (')' :: dp)) := by simp
      rw [hassoc]
      show (match (v ++ (')' :: dp)).dropWhile isWordChar with
        | ')' :: r3 =>
          if ((v ++ (')' :: dp)).takeWhile isWordChar).isEmpty then none
          else some (some ((v ++ (')' :: dp)).takeWhile isWordChar), r3)
        | _ => none) = some (some v, dp)
      rw [hv.1, hv.2, hvempty]
      simp
  obtain ⟨oi, hmi⟩ := hmi
  obtain ⟨ov, hmv⟩ := hmv
  refine ⟨(String.mk w, ov.map String.mk, oi.map String.mk), ?_⟩
  unfold fullmatchSymbol
  rw [heq, hsplit.1, hsplit.2, hwempty]
  simp [hmv, hmi]

/-- Inversion for `matchVariant`: a success is either the skipped optional
group or a parenthesized word-char run consumed from the front. -/
theorem matchVariant_some {cs : List Char} {ov : Option (List Char)} {rest : List Char}
    (h : matchVariant cs = some (ov, rest)) :
    (ov = none ∧ rest = cs) ∨
    ∃ v, ov = some v ∧ IsWordChars v ∧ cs = ('(' :: (v ++ [')'])) ++ rest := by
  rw [matchVariant.eq_def] at h
  split at h
  · rename_i r
    split at h
    · rename_i r3 hdw
      split at h
      · cases h
      · rename_i hne
        injection h with h1
        injection h1 with hov hrest
        refine Or.inr ⟨r.takeWhile isWordChar, hov.symm, ⟨?_, ?_⟩, ?_⟩
        · intro hnil
          exact hne (by rw [hnil]; rfl)
        · intro c hc
          exact List.mem_takeWhile_imp hc
        · have hr : r = r.takeWhile isWordChar ++ (')' :: r3) := by
            rw [← hdw, List.takeWhile_append_dropWhile]
          rw [← hrest]
          simp only [List.cons_append, List.append_assoc, List.singleton_append,
            List.nil_append]
          rw [← hr]
    · cases h
  · injection h with h1
    injection h1 with hov hrest
    exact Or.inl ⟨hov.symm, hrest.symm⟩

/-- Inversion for `matchIndex`: a success is either the skipped optional
group or a colon-led digit run consumed from the front. -/
theorem matchIndex_some {cs : List Char} {oi : Option (List Char)} {rest : List Char}
    (h : matchIndex cs = some (oi, rest)) :
    (oi = none ∧ rest = cs) ∨
    ∃ d, oi = some d ∧ IsDigits d ∧ cs = ':' :: (d ++ rest) := by
  rw [matchIndex.eq_def] at h
  split at h
  · rename_i r
    split at h
    · cases h
    · rename_i hne
      injection h with h1
      injection h1 with hoi hrest
      refine Or.inr ⟨r.takeWhile isDigitChar, hoi.symm, ⟨?_, ?_⟩, ?_⟩
      · intro hnil
        exact hne (by rw [hnil]; rfl)
      · intro c hc
        exact List.mem_takeWhile_imp hc
      · rw [← hrest, List.takeWhile_append_dropWhile]
  · injection h with h1
    injection h1 with hoi hrest
    exact Or.inl ⟨hoi.symm, hrest.symm⟩

/-- Completeness direction: a token the regex accepts is in the grammar. -/
theorem grammar_of_fullmatch {t : String} {x} (h : fullmatchSymbol t = some x) :
    TokenGrammar t := by
  unfold fullmatchSymbol at h
  split at h
  · cases h
  · rename_i hsym
    split at h
    · cases h
    · rename_i variant r2 hmv
      split at h
      · cases h
      · rename_i idx r3 hmi
        split at h
        · rename_i hr3
          have hr3nil : r3 = [] := List.isEmpty_iff.mp hr3
          subst hr3nil
          have hw : IsWordChars (t.data.takeWhile isWordChar) := by
            refine ⟨fun hnil => hsym (by rw [hnil]; rfl), fun c hc => List.mem_takeWhile_imp hc⟩
          have hdata : t.data = t.data.takeWhile isWordChar ++ t.data.dropWhile isWordChar :=
            (List.takeWhile_append_dropWhile isWordChar t.data).symm
          rcases matchIndex_some hmi with ⟨-, hrest⟩ | ⟨d, -, hd, hcs⟩
          · rcases matchVariant_some hmv with ⟨-, hrest2⟩ | ⟨v, -, hv, hcs2⟩
            · -- no variant, no index: r2 = dropWhile, [] = r2
              refine ⟨t.data.takeWhile isWordChar, [], [], hw, Or.inl rfl, Or.inl rfl, ?_⟩
              conv_lhs => rw [hdata]
              rw [← hrest2, ← hrest]
              simp
            · -- variant, no index: dropWhile = '(' :: (v ++ [')']) ++ r2, [] = r2
              refine ⟨t.data.takeWhile isWordChar, '(' :: (v ++ [')']), [], hw,
                Or.inr ⟨v, hv, rfl⟩, Or.inl rfl, ?_⟩
              conv_lhs => rw [hdata]
              rw [hcs2, ← hrest]
          · rcases matchVariant_some hmv with ⟨-, hrest2⟩ | ⟨v, -, hv, hcs2⟩
            · -- no variant, index: r2 = dropWhile, r2 = ':' :: (d ++ [])
              refine ⟨t.data.takeWhile isWordChar, [], ':' :: d, hw, Or.inl rfl,
                Or.inr ⟨d, hd, rfl⟩, ?_⟩
              conv_lhs => rw [hdata]
              rw [← hrest2, hcs]
              simp
            · -- variant and index
              refine ⟨t.data.takeWhile isWordChar, '(' :: (v ++ [')']), ':' :: d, hw,
                Or.inr ⟨v, hv, rfl⟩, Or.inr ⟨d, hd, rfl⟩, ?_⟩
              conv_lhs => rw [hdata]
              rw [hcs2, hcs]
              simp
        · cases h

/-- The regex fullmatch succeeds exactly on the tokens of the anchored
grammar `<word-chars> [( <word-chars> )] [: <digits>]`. -/
theorem fullmatch_iff_grammar (t : String) :
    (∃ x, fullmatchSymbol t = some x) ↔ TokenGrammar t :=
  ⟨fun ⟨_, hx⟩ => grammar_of_fullmatch hx, fullmatch_of_grammar⟩

/-! ### Structural lemmas about the parser -/

/-- `get_symboldata` fails only with the malformed-token error, and only
when the regex rejects the token. -/
theorem get_symboldata_error {di : Int} {t : String} {e : ParseErr}
    (h : get_symboldata di t = Except.error e) :
    e = ParseErr.malformed t ∧ fullmatchSymbol t = none := by
  unfold get_symboldata at h
  cases hf : fullmatchSymbol t with
  | none => rw [hf] at h; injection h with h1; exact ⟨h1.symm, rfl⟩
  | some x => obtain ⟨s1, s2, s3⟩ := x; rw [hf] at h; cases h

/-- On a regex match, `get_symboldata` returns the captured symbol and
variant, with index `int(suffix) - 1` when the suffix is present and
`default_index` otherwise. -/
theorem get_symboldata_ok_of_fullmatch {di : Int} {t sym : String}
    {variant od : Option String}
    (h : fullmatchSymbol t = some (sym, variant, od)) :
    get_symboldata di t = Except.ok ⟨sym, variant,
      match od with
      | some ds => (digitsToNat ds : Int) - 1
      | none => di⟩ := by
  unfold get_symboldata
  simp only [h]
  cases od <;> rfl

/-- Every record a successful `get_symboldata` (with default index 0)
produces has index at least `-1`. -/
theorem get_symboldata_index_lb {t : String} {r : SymbolData}
    (h : get_symboldata 0 t = Except.ok r) : -1 ≤ r.index := by
  unfold get_symboldata at h
  cases hf : fullmatchSymbol t with
  | none => rw [hf] at h; cases h
  | some x =>
    obtain ⟨sym, variant, od⟩ := x
    rw [hf] at h
    injection h with h1
    rw [← h1]
    cases od with
    | none => exact (by decide : (-1 : Int) ≤ 0)
    | some ds =>
      have hnn : (0 : Int) ≤ (digitsToNat ds : Int) := Int.ofNat_nonneg _
      show -1 ≤ (digitsToNat ds : Int) - 1
      omega

/-- The token loop with a nonempty ignore set equals the loop with the
empty ignore set followed by filtering out the ignored symbols (so the
retained records keep the input token order). -/
theorem parseTokens_filter (ns : List String) (di : Int) :
    ∀ ts : List String,
      parseTokens ns di ts =
        (parseTokens [] di ts).map (List.filter (fun r => !decide (r.symbol ∈ ns)))
  | [] => by simp [parseTokens, Except.map]
  | t :: ts => by
    simp only [parseTokens]
    cases hg : get_symboldata di t with
    | error e => simp [Except.map]
    | ok sd =>
      rw [parseTokens_filter ns di ts]
      cases hp : parseTokens [] di ts with
      | error e => simp [Except.map]
      | ok full =>
        simp only [Except.map, List.not_mem_nil, if_false, List.filter_cons]
        by_cases hmem : sd.symbol ∈ ns
        · simp [hmem]
        · simp [hmem]

/-- Every record of a successful token loop comes from `get_symboldata`
on some input token, and its symbol is not in the ignore set. -/
theorem parseTokens_mem (ns : List String) (di : Int) :
    ∀ (ts : List String) (l : List SymbolData), parseTokens ns di ts = Except.ok l →
      ∀ r ∈ l, (∃ t ∈ ts, get_symboldata di t = Except.ok r) ∧ r.symbol ∉ ns
  | [], l, h => by
    injection h with h1
    rw [← h1]
    intro r hr
    cases hr
  | t :: ts, l, h => by
    simp only [parseTokens] at h
    cases hg : get_symboldata di t with
    | error e => rw [hg] at h; cases h
    | ok sd =>
      rw [hg] at h
      cases hp : parseTokens ns di ts with
      | error e => rw [hp] at h; cases h
      | ok rest =>
        rw [hp] at h
        injection h with h1
        intro r hr
        rw [← h1] at hr
        have ih := parseTokens_mem ns di ts rest hp
        by_cases hmem : sd.symbol ∈ ns
        · rw [if_pos hmem] at hr
          obtain ⟨⟨t', ht', hget⟩, hns⟩ := ih r hr
          exact ⟨⟨t', List.mem_cons_of_mem t ht', hget⟩, hns⟩
        · rw [if_neg hmem] at hr
          cases hr with
          | head => exact ⟨⟨t, List.mem_cons_self t ts, hg⟩, hmem⟩
          | tail _ hr' =>
            obtain ⟨⟨t', ht', hget⟩, hns⟩ := ih r hr'
            exact ⟨⟨t', List.mem_cons_of_mem t ht', hget⟩, hns⟩

/-- If any input token is rejected by the regex, the token loop raises a
malformed-token error (the first such token's). -/
theorem parseTokens_error_of_malformed (ns : List String) (di : Int) :
    ∀ (ts : List String) (t : String), t ∈ ts → fullmatchSymbol t = none →
      ∃ t', parseTokens ns di ts = Except.error (ParseErr.malformed t')
  | [], t, hmem, _ => absurd hmem (List.not_mem_nil t)
  | t0 :: ts, t, hmem, hfm => by
    simp only [parseTokens]
    cases hg : get_symboldata di t0 with
    | error e =>
      obtain ⟨he, -⟩ := get_symboldata_error hg
      exact ⟨t0, by rw [he]⟩
    | ok sd =>
      have ht : t ∈ ts := by
        cases hmem with
        | head =>
          exfalso
          unfold get_symboldata at hg
          rw [hfm] at hg
          cases hg
        | tail _ h' => exact h'
      obtain ⟨t', ht'⟩ := parseTokens_error_of_malformed ns di ts t ht hfm
      rw [ht']
      exact ⟨t', rfl⟩

/-- A successful `_parse_symbols` means the token loop succeeded with the
same list and the duplicate-index assertion passed. -/
theorem _parse_symbols_ok {s : String} {ns : List String} {di : Int}
    {l : List SymbolData} (h : _parse_symbols s ns di = Except.ok l) :
    parseTokens ns di (splitPlus s) = Except.ok l
    ∧ (l.map SymbolData.index).Nodup := by
  unfold _parse_symbols at h
  cases hp : parseTokens ns di (splitPlus s) with
  | error e => rw [hp] at h; cases h
  | ok lst =>
    rw [hp] at h
    simp only [] at h
    by_cases hnd : (lst.map SymbolData.index).Nodup
    · rw [if_pos hnd] at h
      injection h with h1
      rw [← h1]
      exact ⟨rfl, hnd⟩
    · rw [if_neg hnd] at h
      cases h

/-- Two positions of the retained list with equal indices defeat the
`Nodup` check on the mapped indices. -/
theorem map_index_not_nodup {l : List SymbolData} {i j : Fin l.length}
    (hne : i ≠ j) (heq : (l.get i).index = (l.get j).index) :
    ¬ (l.map SymbolData.index).Nodup := by
  intro hnd
  have hinj := List.nodup_iff_injective_get.mp hnd
  have hlen : (l.map SymbolData.index).length = l.length := List.length_map l _
  have hij : (⟨i.val, by rw [hlen]; exact i.isLt⟩ : Fin (l.map SymbolData.index).length)
      = ⟨j.val, by rw [hlen]; exact j.isLt⟩ := by
    apply hinj
    rw [List.get_eq_getElem, List.get_eq_getElem]
    simp only [List.getElem_map]
    rw [List.get_eq_getElem, List.get_eq_getElem] at heq
    exact heq
  have hv := congrArg Fin.val hij
  exact hne (Fin.ext (by simpa using hv))

/-- Claim C4: whenever two retained tokens resolve to the same index, the
parse fails with the duplicate-indices error (the `assert` raising a
fatal, caller-visible error); in particular `"pc+us:1+ru:1"` with `"pc"`
ignored fails while `"pc+us:1+ru:2"` succeeds with exactly two records. -/
theorem c4_duplicate_index_error (s : String) (ns : List String) (l : List SymbolData)
    (i j : Fin l.length)
    (hok : parseTokens ns 0 (splitPlus s) = Except.ok l)
    (hne : i ≠ j) (heq : (l.get i).index = (l.get j).index) :
    _parse_symbols s ns = Except.error ParseErr.duplicateIndices
    ∧ _parse_symbols "pc+us:1+ru:1" ["pc"] = Except.error ParseErr.duplicateIndices
    ∧ _parse_symbols "pc+us:1+ru:2" ["pc"] =
        Except.ok [⟨"us", none, 0⟩, ⟨"ru", none, 1⟩] := by
  refine ⟨?_, by decide, by decide⟩
  unfold _parse_symbols
  rw [hok]
  simp only []
  rw [if_neg (map_index_not_nodup hne heq)]

/-- Witness for C4 at the spec's own inputs: `"pc+us:1+ru:1"` with `"pc"`
ignored retains `us` and `ru`, both at index 0. -/
theorem c4_witness :
    _parse_symbols "pc+us:1+ru:1" ["pc"] = Except.error ParseErr.duplicateIndices
    ∧ _parse_symbols "pc+us:1+ru:1" ["pc"] = Except.error ParseErr.duplicateIndices
    ∧ _parse_symbols "pc+us:1+ru:2" ["pc"] =
        Except.ok [⟨"us", none, 0⟩, ⟨"ru", none, 1⟩] :=
  c4_duplicate_index_error "pc+us:1+ru:1" ["pc"]
    [⟨"us", none, 0⟩, ⟨"ru", none, 0⟩]
    ⟨0, by decide⟩ ⟨1, by decide⟩ (by decide) (by decide) (by decide)

/-- Claim C5: a retained token with a `:<digits>` suffix is assigned index
`suffix - 1`, and every token without a suffix is assigned the same
non-incrementing default index 0; in particular
`parse("us+ru(phonetic):2+fr:3", [])` gives `us` index 0, `ru` index 1
and `fr` index 2. -/
theorem c5_index_assignment (tok sym : String) (variant od : Option String)
    (h : fullmatchSymbol tok = some (sym, variant, od)) :
    get_symboldata 0 tok = Except.ok ⟨sym, variant,
      match od with
      | some ds => (digitsToNat ds : Int) - 1
      | none => 0⟩
    ∧ _parse_symbols "us+ru(phonetic):2+fr:3" [] =
        Except.ok [⟨"us", none, 0⟩, ⟨"ru", some "phonetic", 1⟩, ⟨"fr", none, 2⟩] :=
  ⟨get_symboldata_ok_of_fullmatch h, by decide⟩

/-- Witness for C5 at the token `"ru(phonetic):2"`: explicit suffix 2
yields stored index 1; the example parse is as the spec states. -/
theorem c5_witness :
    get_symboldata 0 "ru(phonetic):2" = Except.ok ⟨"ru", some "phonetic", 1⟩
    ∧ _parse_symbols "us+ru(phonetic):2+fr:3" [] =
        Except.ok [⟨"us", none, 0⟩, ⟨"ru", some "phonetic", 1⟩, ⟨"fr", none, 2⟩] := by
  have h := c5_index_assignment "ru(phonetic):2" "ru" (some "phonetic") (some "2")
    (by decide)
  exact ⟨h.1.trans (by decide), h.2⟩

/-- Claim C6 counterexample: `"us:0"` has an explicit `:0` suffix, parses
successfully, and its single record's index is `0 - 1 = -1`, which is
negative — refuting non-negativity of all indices of a successful parse. -/
theorem c6_counterexample :
    _parse_symbols "us:0" [] = Except.ok [⟨"us", none, -1⟩]
    ∧ ¬ (0 : Int) ≤ (-1 : Int) := by decide

/-- Claim C6 as amended: every record of a successful parse has index at
least `-1` (the default index is 0 and an explicit 1-based suffix `n`
stores `n - 1 ≥ -1`; the index is `-1` exactly for an explicit `:0`
suffix, so non-negativity holds only for suffixes `≥ 1`). -/
theorem c6_amended_index_lower_bound (s : String) (ns : List String)
    (l : List SymbolData) (h : _parse_symbols s ns = Except.ok l) :
    ∀ r ∈ l, -1 ≤ r.index := by
  intro r hr
  obtain ⟨hok, -⟩ := _parse_symbols_ok h
  obtain ⟨⟨t, -, hget⟩, -⟩ := parseTokens_mem ns 0 _ l hok r hr
  exact get_symboldata_index_lb hget

/-- Witness for C6's amended bound at the `:0` boundary input. -/
theorem c6_witness : -1 ≤ (SymbolData.mk "us" none (-1)).index :=
  c6_amended_index_lower_bound "us:0" [] [⟨"us", none, -1⟩] (by decide)
    ⟨"us", none, -1⟩ (by decide)

/-- Claim C7: no record of a successful parse has a symbol in the
ignored-token set, and the retained records are exactly the unfiltered
parse of the same tokens, filtered in input order; in particular
`parse("pc+inet+us+ru(phonetic):2", ["pc","inet"])` yields exactly
`us` (no variant, index 0) and `ru` (variant `phonetic`, index 1). -/
theorem c7_ignored_filtering (s : String) (ns : List String) (l : List SymbolData)
    (h : _parse_symbols s ns = Except.ok l) :
    (∀ r ∈ l, r.symbol ∉ ns)
    ∧ (∃ full, parseTokens [] 0 (splitPlus s) = Except.ok full
        ∧ l = full.filter (fun r => !decide (r.symbol ∈ ns)))
    ∧ _parse_symbols "pc+inet+us+ru(phonetic):2" ["pc", "inet"] =
        Except.ok [⟨"us", none, 0⟩, ⟨"ru", some "phonetic", 1⟩] := by
  obtain ⟨hok, -⟩ := _parse_symbols_ok h
  refine ⟨fun r hr => (parseTokens_mem ns 0 _ l hok r hr).2, ?_, by decide⟩
  rw [parseTokens_filter] at hok
  cases hp : parseTokens [] 0 (splitPlus s) with
  | error e => rw [hp] at hok; cases hok
  | ok full =>
    rw [hp] at hok
    injection hok with h1
    exact ⟨full, rfl, h1.symm⟩

/-- Witness for C7 at the spec's example input. -/
theorem c7_witness :
    (∀ r ∈ [SymbolData.mk "us" none 0, SymbolData.mk "ru" (some "phonetic") 1],
      r.symbol ∉ ["pc", "inet"])
    ∧ (∃ full, parseTokens [] 0 (splitPlus "pc+inet+us+ru(phonetic):2") = Except.ok full
        ∧ [SymbolData.mk "us" none 0, SymbolData.mk "ru" (some "phonetic") 1]
            = full.filter (fun r => !decide (r.symbol ∈ ["pc", "inet"])))
    ∧ _parse_symbols "pc+inet+us+ru(phonetic):2" ["pc", "inet"] =
        Except.ok [⟨"us", none, 0⟩, ⟨"ru", some "phonetic", 1⟩] :=
  c7_ignored_filtering "pc+inet+us+ru(phonetic):2" ["pc", "inet"]
    [⟨"us", none, 0⟩, ⟨"ru", some "phonetic", 1⟩] (by decide)

/-- Claim C8: a token outside the anchored grammar
`<word-chars> [( <word-chars> )] [: <digits>]` (no partial match
accepted) makes the parse fail with a malformed-token error; in
particular `"us)(bad"` is outside the grammar and `parse("us)(bad", [])`
fails. -/
theorem c8_malformed_token (s : String) (ns : List String) (tok : String)
    (hmem : tok ∈ splitPlus s) (hbad : ¬ TokenGrammar tok) :
    (∃ t, _parse_symbols s ns = Except.error (ParseErr.malformed t))
    ∧ ¬ TokenGrammar "us)(bad"
    ∧ (∃ t, _parse_symbols "us)(bad" [] = Except.error (ParseErr.malformed t)) := by
  have hfm : fullmatchSymbol tok = none := by
    cases hx : fullmatchSymbol tok with
    | none => rfl
    | some x => exact absurd (grammar_of_fullmatch hx) hbad
  obtain ⟨t', ht'⟩ := parseTokens_error_of_malformed ns 0 (splitPlus s) tok hmem hfm
  refine ⟨⟨t', ?_⟩, ?_, ⟨"us)(bad", by decide⟩⟩
  · unfold _parse_symbols
    rw [ht']
  · intro hg
    obtain ⟨x, hx⟩ := fullmatch_of_grammar hg
    rw [show fullmatchSymbol "us)(bad" = none from by decide] at hx
    cases hx

/-- Witness for C8 at the spec's example token `"us)(bad"` (outside the
grammar because `)` can appear in no decomposition). -/
theorem c8_witness :
    (∃ t, _parse_symbols "us)(bad" [] = Except.error (ParseErr.malformed t))
    ∧ ¬ TokenGrammar "us)(bad"
    ∧ (∃ t, _parse_symbols "us)(bad" [] = Except.error (ParseErr.malformed t)) :=
  c8_malformed_token "us)(bad" [] "us)(bad" (by decide)
    (fun hg => by
      obtain ⟨x, hx⟩ := fullmatch_of_grammar hg
      rw [show fullmatchSymbol "us)(bad" = none from by decide] at hx
      cases hx)

end Xkbgroup
